import Mathlib

/-!
Verification of the face-matching attendance loop of the fr-attendance
repository (recognize.py, and the DatabaseManager recorder of gui.py),
as a shallow embedding.

Embeddings are modelled as vectors of rationals; face_recognition's
Euclidean-distance comparison `face_distance(known, q) <= tolerance` is
modelled by comparing squared distances against the squared tolerance
(equivalent, since both sides are nonnegative and squaring is monotone
there). Frames are abstract: a frame is identified with the list of
face embeddings detected in it; pixel-level operations (resize, colour
conversion, box drawing) have no semantic counterpart beyond the list
of annotation labels attached to a presented frame. Clock readings
(datetime.now) and camera/detector behaviour are inputs to the model.
-/

namespace FRAtt

/-- A face embedding: a fixed-length real vector, modelled over ℚ. -/
abbrev Emb := List ℚ

/-- Squared Euclidean distance between two embeddings, componentwise
(numpy's norm of the difference, squared). -/
def dist2 (a b : Emb) : ℚ :=
  ((a.zip b).map (fun p => (p.1 - p.2) * (p.1 - p.2))).sum

/-- Square of the TOLERANCE constant 0.5 of recognize.py. -/
def TOL2 : ℚ := 1 / 4

/-- Model of face_recognition.compare_faces: one boolean per gallery
encoding, true iff the (squared) distance to the query is at-or-below
the (squared) tolerance. -/
def compare_faces (known : List Emb) (enc : Emb) (tol2 : ℚ) : List Bool :=
  known.map (fun k => decide (dist2 k enc ≤ tol2))

/-- Model of the per-face naming logic of recognize.py lines 141-153:
`matches = compare_faces(...)`; `name = "Unknown"`; if True is in
matches, `name = known_names[matches.index(True)]`. The `none` result
models the IndexError raised when the parallel names list is shorter
than the encodings list. -/
def matchName (encs : List Emb) (names : List String) (tol2 : ℚ) (enc : Emb) :
    Option String :=
  let ms := compare_faces encs enc tol2
  if ms.contains true then names[ms.findIdx (fun b => b)]?
  else some ("Unknown")

/-- One row of the attendance table of gui.py init_database (the columns
the claims are about; `time` is stored as seconds-of-day). -/
structure AttRow where
  student_id : String
  name : String
  date : String
  time : Nat
  status : String
  confidence : Option ℚ
  late_minutes : Nat
  session_id : Option String
deriving DecidableEq

/-- There is a stored row for the given (student_id, date) key: the
UNIQUE(student_id, date) constraint guard. -/
def hasRow (db : List AttRow) (sid day : String) : Bool :=
  db.any (fun r => r.student_id == sid && r.date == day)

/-- Number of stored rows for the (student_id, date) key. -/
def countRows (db : List AttRow) (sid day : String) : Nat :=
  (db.filter (fun r => r.student_id == sid && r.date == day)).length

/-- Student-id derivation of recognize.py save_to_db line 29:
`name.lower().replace(" ", "_")` (ASCII case folding, charwise). -/
def student_id_of (name : String) : String :=
  String.mk ((name.data.map Char.toLower).map (fun c => if c = ' ' then '_' else c))

/-- Model of recognize.py save_to_db lines 21-51: derive the student id
from the label and `INSERT OR IGNORE` a row with status "Present"
(late_minutes takes its column default 0; confidence and session_id are
not in the column list). The UNIQUE(student_id, date) constraint makes
the insert a no-op when a row for that key exists. -/
def save_to_db (db : List AttRow) (nm : String) (day : String) (tm : Nat) :
    List AttRow :=
  let sid := student_id_of nm
  if hasRow db sid day then db
  else db ++ [⟨sid, nm, day, tm, "Present", none, 0, none⟩]

/-- Seconds-of-day of the 09:00:00 shift start hard-coded in gui.py
record_attendance. -/
def shiftStartSecs : Nat := 9 * 3600

/-- Model of gui.py DatabaseManager.record_attendance lines 278-314:
check for an existing (student_id, date) row and answer
(False, "Already marked"); otherwise derive late minutes from the
event's time of day against the 09:00:00 shift start, set status to
"Late" when more than 15 late minutes, and insert the row. The event
clock (h, m, s) is a parameter standing for datetime.now(). -/
def record_attendance (db : List AttRow) (sid nm : String) (conf : Option ℚ)
    (sess : Option String) (day : String) (h m s : Nat) :
    List AttRow × Bool × String :=
  if hasRow db sid day then (db, false, "Already marked")
  else
    let t := h * 3600 + m * 60 + s
    let late := if shiftStartSecs < t then (t - shiftStartSecs) / 60 else 0
    let status := if 15 < late then "Late" else "Present"
    (db ++ [⟨sid, nm, day, t, status, conf, late, sess⟩], true, status)

/-- Observable events of one recognition run: a frame presented with
its annotation labels, a detection pass over a frame, an invocation of
save_to_db (ok = whether the storage write succeeded), and the
camera-lost warning. -/
inductive Ev where
  | presented (n : Nat) (annots : List String)
  | detect (n : Nat) (nFaces : Nat)
  | saveEv (nm : String) (ok : Bool)
  | camLost
deriving DecidableEq

/-- Environment input for one iteration of the main loop of
recognize.py: either cap.read() fails (with the outcome of the
subsequent open_camera retry), or it yields a frame, given as the faces
the detector would find in it, each paired with whether a storage write
attempted for it would succeed, plus whether the q key is pressed at
the end of the iteration. -/
inductive Tick where
  | readFail (reopenOk : Bool)
  | frame (faces : List (Emb × Bool)) (quit : Bool)

/-- How a run of the main loop ends: the q-key break, or an uncaught
exception (crash). -/
inductive RunExit where
  | quit
  | crashed
deriving DecidableEq

/-- Mutable state of the main loop of recognize.py: whether `cap` holds
a live handle (false = None), the frame counter, the session dedup set
`marked` (as a list), the attendance table, and the event trace. -/
structure LoopState where
  cap : Bool
  frameCount : Nat
  marked : List String
  db : List AttRow
  trace : List Ev

/-- Fixed context of one recognition run: the gallery loaded from
model.pkl (parallel lists, as in train_model.py) and the date and
seconds-of-day that datetime.now() yields for storage writes. -/
structure RunCtx where
  encodings : List Emb
  names : List String
  day : String
  timeN : Nat

/-- The state at loop entry: the startup while-loop has opened the
camera, `marked = set()`, `frame_count = 0`, no rows written yet. -/
def initState : LoopState :=
  ⟨true, 0, [], [], []⟩

/-- The recording branch of recognize.py lines 156-162: when the
matched label is not yet in `marked`, add it to `marked` and then call
save_to_db (a failing write changes no rows; save_to_db traps its own
exception, so the loop continues either way and the label stays in
`marked`). -/
def faceUpdate (ctx : RunCtx) (s : LoopState) (nm : String) (saveOk : Bool) :
    LoopState :=
  if s.marked.contains nm then s
  else { s with
          marked := s.marked ++ [nm],
          db := if saveOk then save_to_db s.db nm ctx.day ctx.timeN else s.db,
          trace := s.trace ++ [Ev.saveEv nm saveOk] }

/-- The per-face for-loop of recognize.py lines 139-184: compare each
face against the gallery; on a match take the first matching entry's
label (IndexError, modelled as `none`, when the parallel names list is
shorter than the encodings list) and apply the recording branch;
annotate the frame with each face's label ("Unknown" for unmatched
faces). Returns the updated state and the annotation labels. -/
def processFaces (ctx : RunCtx) (s : LoopState) (annots : List String) :
    List (Emb × Bool) → Option (LoopState × List String)
  | [] => some (s, annots)
  | (enc, saveOk) :: rest =>
    let ms := compare_faces ctx.encodings enc TOL2
    if ms.contains true then
      match ctx.names[ms.findIdx (fun b => b)]? with
      | none => none
      | some nm => processFaces ctx (faceUpdate ctx s nm saveOk) (annots ++ [nm]) rest
    else
      processFaces ctx s (annots ++ [("Unknown")]) rest

/-- One iteration of the main while-loop of recognize.py lines 102-191.
A None camera handle crashes at cap.read() (AttributeError). A read
failure logs the warning, releases the handle and retries open_camera
once, then continues. A successful read increments the frame counter;
when it is not divisible by 3 the frame is presented with no
annotations and nothing else happens; otherwise the detector runs and
every face is matched, possibly recorded, and annotated, and the
annotated frame is presented. The q key ends the loop after a
presented frame. -/
def stepTick (ctx : RunCtx) (s : LoopState) : Tick → LoopState × Option RunExit
  | Tick.readFail reopenOk =>
    if s.cap then
      ({ s with cap := reopenOk, trace := s.trace ++ [Ev.camLost] }, none)
    else (s, some RunExit.crashed)
  | Tick.frame faces quit =>
    if s.cap then
      let n := s.frameCount + 1
      if n % 3 ≠ 0 then
        ({ s with frameCount := n, trace := s.trace ++ [Ev.presented n []] },
         if quit then some RunExit.quit else none)
      else
        let s0 := { s with frameCount := n, trace := s.trace ++ [Ev.detect n faces.length] }
        match processFaces ctx s0 [] faces with
        | none => (s0, some RunExit.crashed)
        | some (s1, annots) =>
          ({ s1 with trace := s1.trace ++ [Ev.presented n annots] },
           if quit then some RunExit.quit else none)
    else (s, some RunExit.crashed)

/-- Run the main loop over a list of environment inputs; stops early at
a quit keypress or a crash, and reports how it ended (`none`: the input
list ran out with the loop still live). -/
def runLoop (ctx : RunCtx) (s : LoopState) : List Tick → LoopState × Option RunExit
  | [] => (s, none)
  | t :: ts =>
    match stepTick ctx s t with
    | (s1, none) => runLoop ctx s1 ts
    | (s1, some e) => (s1, some e)

/-- Number of save_to_db invocations for a given label in a trace. -/
def savesOf (tr : List Ev) (nm : String) : Nat :=
  tr.countP (fun e =>
    match e with
    | Ev.saveEv n _ => n == nm
    | _ => false)

/-- Invariant of the session-dedup discipline over a trace and a marked
set: every label was saved at most once, a saved label is in the marked
set, and every marked label is a gallery label. -/
def GoodT (names : List String) (tr : List Ev) (mkd : List String) : Prop :=
  ∀ nm : String, savesOf tr nm ≤ 1 ∧
    (0 < savesOf tr nm → nm ∈ mkd) ∧
    (nm ∈ mkd → nm ∈ names)

/-- A run context whose single gallery entry is literally labelled
Unknown. -/
def cexCtxUnknown : RunCtx := ⟨[[(0 : ℚ)]], [("Unknown")], ("d"), 0⟩

/-- Three successfully read frames, each showing the gallery face, with
storage available; only the third is a detection frame. -/
def cexUnknownTicks : List Tick :=
  [Tick.frame [([0], true)] false, Tick.frame [([0], true)] false,
   Tick.frame [([0], true)] false]

theorem dist2_self (a : Emb) : dist2 a a = 0 := by
  induction a with
  | nil => rfl
  | cons x xs ih => simpa [dist2, List.zip_cons_cons] using ih

theorem findIdx_eq_of_first {α : Type} (p : α → Bool) (l : List α) (k : Nat)
    (a : α) (hk : l[k]? = some a) (ha : p a = true)
    (hlt : ∀ j b, j < k → l[j]? = some b → p b = false) :
    l.findIdx p = k := by
  induction l generalizing k with
  | nil => simp at hk
  | cons x xs ih =>
    cases k with
    | zero =>
      simp at hk
      subst hk
      simp [List.findIdx_cons, ha]
    | succ k =>
      have hx : p x = false := hlt 0 x (Nat.succ_pos k) (by simp)
      simp at hk
      have := ih k hk (fun j b hj hb => hlt (j + 1) b (Nat.succ_lt_succ hj) (by simpa using hb))
      simp [List.findIdx_cons, hx, this]

theorem contains_true_of_get? (l : List Bool) (k : Nat) (hk : l[k]? = some true) :
    l.contains true = true := by
  induction l generalizing k with
  | nil => simp at hk
  | cons x xs ih =>
    cases k with
    | zero => simp_all
    | succ k =>
      simp at hk
      simpa using Or.inr (by simpa using ih k hk)

/-- First-match characterisation of the matcher: when the k-th gallery
entry is within tolerance of the query and no earlier entry is, the
loop labels the face with the k-th name (matches.index(True) = k). -/
theorem matchName_first (encs : List Emb) (names : List String) (tol2 : ℚ)
    (q : Emb) (k : Nat) (e : Emb) (hk : encs[k]? = some e)
    (he : dist2 e q ≤ tol2)
    (hlt : ∀ j ej, j < k → encs[j]? = some ej → ¬ dist2 ej q ≤ tol2) :
    matchName encs names tol2 q = names[k]? := by
  have hms : (compare_faces encs q tol2)[k]? = some true := by
    simp [compare_faces, List.getElem?_map, hk, he]
  have hcontains : (compare_faces encs q tol2).contains true = true :=
    contains_true_of_get? _ k hms
  have hidx : (compare_faces encs q tol2).findIdx (fun b => b) = k := by
    refine findIdx_eq_of_first _ _ k true hms rfl ?_
    intro j b hj hb
    simp [compare_faces, List.getElem?_map] at hb
    obtain ⟨ej, hej, hbe⟩ := hb
    have := hlt j ej hj hej
    simp [← hbe, this]
  have hmem : true ∈ compare_faces encs q tol2 := List.getElem?_mem hms
  simp [matchName, hmem, hidx]

/-- C1 counterexample: a gallery with two entries at distances 0.4 and
0.3 from the query (squared: 4/25 and 9/100), both within tolerance
0.5; the code returns the load-order-first entry "A" (distance 0.4),
not the nearest entry "B" (distance 0.3) as the claim states. -/
theorem c1_counterexample :
    dist2 [(0 : ℚ)] [2 / 5] = 4 / 25 ∧
    dist2 [(7 : ℚ) / 10] [2 / 5] = 9 / 100 ∧
    dist2 [(0 : ℚ)] [2 / 5] ≤ TOL2 ∧
    dist2 [(7 : ℚ) / 10] [2 / 5] ≤ TOL2 ∧
    matchName [[(0 : ℚ)], [7 / 10]] ["A", "B"] TOL2 [2 / 5] = some ("A") ∧
    matchName [[(0 : ℚ)], [7 / 10]] ["A", "B"] TOL2 [2 / 5] ≠ some ("B") := by
  refine ⟨by norm_num [dist2], by norm_num [dist2], by norm_num [dist2, TOL2],
    by norm_num [dist2, TOL2], ?_, ?_⟩ <;>
  · simp [matchName, compare_faces, dist2, TOL2]
    norm_num
    decide

/-- C1 (amended): the matcher implements the first-match policy, not
the nearest-match policy: whenever the k-th gallery entry is within
tolerance of the query and no earlier (load-order) entry is, the
returned label is the k-th name, regardless of whether a later entry
is closer. -/
theorem c1_first_match_policy (encs : List Emb) (names : List String)
    (tol2 : ℚ) (q : Emb) (k : Nat) (e : Emb) (hk : encs[k]? = some e)
    (he : dist2 e q ≤ tol2)
    (hlt : ∀ j ej, j < k → encs[j]? = some ej → ¬ dist2 ej q ≤ tol2) :
    matchName encs names tol2 q = names[k]? :=
  matchName_first encs names tol2 q k e hk he hlt

theorem c1_first_match_policy_witness :
    ([[(0 : ℚ)], [7 / 10]] : List Emb)[0]? = some [0] ∧
    dist2 [(0 : ℚ)] [2 / 5] ≤ TOL2 ∧
    matchName [[(0 : ℚ)], [7 / 10]] ["A", "B"] TOL2 [2 / 5] = (["A", "B"] : List String)[0]? := by
  refine ⟨by simp, by norm_num [dist2, TOL2], ?_⟩
  exact c1_first_match_policy [[(0 : ℚ)], [7 / 10]] ["A", "B"] TOL2 [2 / 5] 0 [0]
    (by simp) (by norm_num [dist2, TOL2])
    (fun j ej hj _ => absurd hj (Nat.not_lt_zero j))

/-- C9 counterexample: the embedding [3/10] occurs in the gallery at
index 1 with label "B", but matching it returns "A", because the
earlier entry [0] is also within tolerance (distance 0.3) and the code
takes the first match in load order. -/
theorem c9_counterexample :
    ([[(0 : ℚ)], [3 / 10]] : List Emb)[1]? = some [3 / 10] ∧
    (["A", "B"] : List String)[1]? = some ("B") ∧
    matchName [[(0 : ℚ)], [3 / 10]] ["A", "B"] TOL2 [3 / 10] = some ("A") ∧
    ("A" : String) ≠ "B" := by
  refine ⟨by simp, by simp, ?_, by simp⟩
  simp [matchName, compare_faces, dist2, TOL2]
  norm_num
  decide

/-- C9 (amended): a gallery entry matched as the query is never
labelled Unknown: since its distance to itself is 0, some entry is
within tolerance, and the matcher returns the first such entry's label
in load order, which is the entry's own label whenever no earlier entry
lies within tolerance of it. -/
theorem c9_gallery_entry_self_match (encs : List Emb) (names : List String)
    (k : Nat) (e : Emb) (hk : encs[k]? = some e)
    (hlt : ∀ j ej, j < k → encs[j]? = some ej → ¬ dist2 ej e ≤ TOL2) :
    matchName encs names TOL2 e = names[k]? :=
  matchName_first encs names TOL2 e k e hk
    (by rw [dist2_self]; norm_num [TOL2]) hlt

theorem c9_gallery_entry_self_match_witness :
    ([[(1 : ℚ) / 3]] : List Emb)[0]? = some [1 / 3] ∧
    matchName [[(1 : ℚ) / 3]] ["A"] TOL2 [1 / 3] = (["A"] : List String)[0]? := by
  refine ⟨by simp, ?_⟩
  exact c9_gallery_entry_self_match [[(1 : ℚ) / 3]] ["A"] 0 [1 / 3] (by simp)
    (fun j ej hj _ => absurd hj (Nat.not_lt_zero j))

/-- C4 (confirmed): when every gallery entry is farther than the
tolerance from the query, the matcher returns the label Unknown; and
with an empty gallery every query returns Unknown, with no error
(no `none`). -/
theorem c4_unknown_when_no_qualifier (encs : List Emb) (names : List String)
    (tol2 : ℚ) (q : Emb) (h : ∀ e ∈ encs, ¬ dist2 e q ≤ tol2) :
    matchName encs names tol2 q = some ("Unknown") ∧
    matchName [] names tol2 q = some ("Unknown") := by
  constructor
  · have hnot : true ∉ compare_faces encs q tol2 := by
      intro hmem
      simp [compare_faces] at hmem
      obtain ⟨e, he, hbe⟩ := hmem
      exact h e he hbe
    simp [matchName, hnot]
  · rfl

theorem c4_unknown_when_no_qualifier_witness :
    (∀ e ∈ ([[(1 : ℚ)]] : List Emb), ¬ dist2 e [0] ≤ TOL2) ∧
    matchName [[(1 : ℚ)]] ["A"] TOL2 [0] = some ("Unknown") ∧
    matchName [] ["A"] TOL2 [0] = some ("Unknown") := by
  have h : ∀ e ∈ ([[(1 : ℚ)]] : List Emb), ¬ dist2 e [0] ≤ TOL2 := by
    intro e he
    simp at he
    subst he
    norm_num [dist2, TOL2]
  exact ⟨h, c4_unknown_when_no_qualifier [[(1 : ℚ)]] ["A"] TOL2 [0] h⟩

theorem countRows_zero_of_not_hasRow (db : List AttRow) (sid day : String)
    (h : hasRow db sid day = false) : countRows db sid day = 0 := by
  simp [hasRow] at h
  simp [countRows, List.filter_eq_nil_iff]
  intro r hr
  simpa using h r hr

/-- C2 (confirmed): starting from a table with no row for
(student_id, date), recording twice for the same student and date
leaves exactly one stored row for that key; the second call changes no
rows and reports (False, "Already marked") instead of raising. -/
theorem c2_recorder_idempotent (db : List AttRow) (sid nm nm2 : String)
    (conf conf2 : Option ℚ) (sess sess2 : Option String) (day : String)
    (h1 m1 s1 h2 m2 s2 : Nat) (hnew : hasRow db sid day = false) :
    (record_attendance (record_attendance db sid nm conf sess day h1 m1 s1).1
        sid nm2 conf2 sess2 day h2 m2 s2).2 = (false, "Already marked") ∧
    (record_attendance (record_attendance db sid nm conf sess day h1 m1 s1).1
        sid nm2 conf2 sess2 day h2 m2 s2).1 =
      (record_attendance db sid nm conf sess day h1 m1 s1).1 ∧
    countRows (record_attendance db sid nm conf sess day h1 m1 s1).1 sid day = 1 := by
  have hzero := countRows_zero_of_not_hasRow db sid day hnew
  set db1 := (record_attendance db sid nm conf sess day h1 m1 s1).1 with hdb1
  have h1eq : db1 = db ++ [⟨sid, nm, day, h1 * 3600 + m1 * 60 + s1,
        if 15 < (if shiftStartSecs < h1 * 3600 + m1 * 60 + s1 then
          (h1 * 3600 + m1 * 60 + s1 - shiftStartSecs) / 60 else 0) then "Late" else "Present",
        conf,
        if shiftStartSecs < h1 * 3600 + m1 * 60 + s1 then
          (h1 * 3600 + m1 * 60 + s1 - shiftStartSecs) / 60 else 0, sess⟩] := by
    rw [hdb1]
    simp [record_attendance, hnew]
  have hhas : hasRow db1 sid day = true := by
    rw [h1eq]
    simp [hasRow]
  refine ⟨?_, ?_, ?_⟩
  · simp [record_attendance, hhas]
  · simp [record_attendance, hhas]
  · rw [h1eq]
    simp [countRows, List.filter_append]
    simpa [countRows] using hzero

theorem c2_recorder_idempotent_witness :
    hasRow [] ("john_smith") ("2026-10-12") = false ∧
    (record_attendance (record_attendance [] ("john_smith") ("John Smith") none none
        ("2026-10-12") 9 5 0).1 ("john_smith") ("John Smith") none none
        ("2026-10-12") 9 6 0).2 = (false, "Already marked") ∧
    (record_attendance (record_attendance [] ("john_smith") ("John Smith") none none
        ("2026-10-12") 9 5 0).1 ("john_smith") ("John Smith") none none
        ("2026-10-12") 9 6 0).1 =
      (record_attendance [] ("john_smith") ("John Smith") none none
        ("2026-10-12") 9 5 0).1 ∧
    countRows (record_attendance [] ("john_smith") ("John Smith") none none
        ("2026-10-12") 9 5 0).1 ("john_smith") ("2026-10-12") = 1 := by
  have h : hasRow [] ("john_smith") ("2026-10-12") = false := rfl
  exact ⟨h, c2_recorder_idempotent [] ("john_smith") ("John Smith") ("John Smith")
    none none none none ("2026-10-12") 9 5 0 9 6 0 h⟩

/-- C6 counterexample: an attendance event at 09:05 is stored by the
recorder with late_minutes = 5, not late_minutes = 0 as the claim
states (the code floors negative gaps to 0 only before the shift
start, not up to the late threshold). -/
theorem c6_counterexample :
    (record_attendance [] ("a") ("A") none none ("d") 9 5 0).1.map
      AttRow.late_minutes = [5] ∧
    ¬ (record_attendance [] ("a") ("A") none none ("d") 9 5 0).1.map
      AttRow.late_minutes = [0] := by
  constructor <;> decide

/-- C6 (amended): the GUI recorder derives status from the event time
against the hard-coded 09:00 shift start and 15-minute threshold: an
event at 09:20 is stored with status Late and late_minutes 20, an
event at 09:05 with status Present and late_minutes 5 (not 0). The
derivation is not shared by every front-end: the recognition script's
own storage path (save_to_db) performs no time derivation and always
inserts status "Present" with late_minutes 0, whatever the event
time. -/
theorem c6_status_derivation (sid nm d : String) (db : List AttRow)
    (nm2 d2 : String) (t2 : Nat)
    (hdb : hasRow db (student_id_of nm2) d2 = false) :
    record_attendance [] sid nm none none d 9 20 0 =
      ([⟨sid, nm, d, 33600, "Late", none, 20, none⟩], true, "Late") ∧
    record_attendance [] sid nm none none d 9 5 0 =
      ([⟨sid, nm, d, 32700, "Present", none, 5, none⟩], true, "Present") ∧
    save_to_db db nm2 d2 t2 =
      db ++ [⟨student_id_of nm2, nm2, d2, t2, "Present", none, 0, none⟩] := by
  refine ⟨?_, ?_, ?_⟩
  · simp [record_attendance, hasRow, shiftStartSecs]
  · simp [record_attendance, hasRow, shiftStartSecs]
  · simp [save_to_db, hdb]

theorem c6_status_derivation_witness :
    hasRow [] (student_id_of ("B b")) ("d") = false ∧
    record_attendance [] ("a") ("A") none none ("d") 9 20 0 =
      ([⟨("a"), ("A"), ("d"), 33600, "Late", none, 20, none⟩], true, "Late") ∧
    record_attendance [] ("a") ("A") none none ("d") 9 5 0 =
      ([⟨("a"), ("A"), ("d"), 32700, "Present", none, 5, none⟩], true, "Present") ∧
    save_to_db [] ("B b") ("d") 33600 =
      [] ++ [⟨student_id_of ("B b"), ("B b"), ("d"), 33600, "Present", none, 0, none⟩] := by
  have h : hasRow [] (student_id_of ("B b")) ("d") = false := rfl
  exact ⟨h, c6_status_derivation ("a") ("A") ("d") [] ("B b") ("d") 33600 h⟩

theorem save_to_db_noop (db : List AttRow) (nm day : String) (tm : Nat)
    (h : hasRow db (student_id_of nm) day = true) : save_to_db db nm day tm = db := by
  simp [save_to_db, h]

theorem map_congr_zip {α β : Type} (f : α → β) :
    ∀ (l1 l2 : List α), l1.length = l2.length →
      (∀ p ∈ l1.zip l2, f p.1 = f p.2) → l1.map f = l2.map f := by
  intro l1
  induction l1 with
  | nil =>
    intro l2 hlen _
    cases l2 with
    | nil => rfl
    | cons b l2 => simp at hlen
  | cons a l1 ih =>
    intro l2 hlen hp
    cases l2 with
    | nil => simp at hlen
    | cons b l2 =>
      simp at hlen
      have hhead := hp (a, b) (by simp)
      have htail := ih l2 hlen (fun p hp2 => hp p (by simp [hp2]))
      simp [hhead, htail]

/-- C10 (confirmed): the stored student id is the label lowercased with
every space replaced by an underscore; two labels that agree charwise
up to letter case and up to the space/underscore distinction derive the
same student id, and once one of them is recorded for a date, inserting
the other on the same date is a no-op under the (student_id, date)
uniqueness guard: at most one of them is stored per day. -/
theorem c10_studentid_collision (s t : String) (db : List AttRow) (day : String)
    (tm tm2 : Nat) (hlen : s.data.length = t.data.length)
    (hch : ∀ p ∈ s.data.zip t.data,
      p.1.toLower = p.2.toLower ∨ ((p.1 = ' ' ∨ p.1 = '_') ∧ (p.2 = ' ' ∨ p.2 = '_')))
    (hdb : hasRow db (student_id_of s) day = false) :
    student_id_of s = student_id_of t ∧
    save_to_db (save_to_db db s day tm) t day tm2 = save_to_db db s day tm := by
  have hid : student_id_of s = student_id_of t := by
    unfold student_id_of
    rw [List.map_map, List.map_map]
    congr 1
    apply map_congr_zip _ s.data t.data hlen
    intro p hp
    rcases hch p hp with h | ⟨ha, hb⟩
    · simp [Function.comp, h]
    · rcases ha with ha | ha <;> rcases hb with hb | hb <;>
        simp [Function.comp, ha, hb]
  have h1 : save_to_db db s day tm =
      db ++ [⟨student_id_of s, s, day, tm, "Present", none, 0, none⟩] := by
    simp [save_to_db, hdb]
  have h2 : hasRow (save_to_db db s day tm) (student_id_of t) day = true := by
    rw [h1, ← hid]
    simp [hasRow]
  constructor
  · exact hid
  · exact save_to_db_noop _ t day tm2 h2

theorem c10_studentid_collision_witness :
    ("John Smith").data.length = ("JOHN_SMITH").data.length ∧
    student_id_of ("John Smith") = student_id_of ("JOHN_SMITH") ∧
    save_to_db (save_to_db [] ("John Smith") ("d") 1) ("JOHN_SMITH") ("d") 2 =
      save_to_db [] ("John Smith") ("d") 1 := by
  have hlen : ("John Smith").data.length = ("JOHN_SMITH").data.length := by decide
  have hch : ∀ p ∈ ("John Smith").data.zip ("JOHN_SMITH").data,
      p.1.toLower = p.2.toLower ∨ ((p.1 = ' ' ∨ p.1 = '_') ∧ (p.2 = ' ' ∨ p.2 = '_')) := by
    decide
  have hdb : hasRow [] (student_id_of ("John Smith")) ("d") = false := rfl
  have := c10_studentid_collision ("John Smith") ("JOHN_SMITH") [] ("d") 1 2 hlen hch hdb
  exact ⟨hlen, this.1, this.2⟩

theorem savesOf_append (tr1 tr2 : List Ev) (nm : String) :
    savesOf (tr1 ++ tr2) nm = savesOf tr1 nm + savesOf tr2 nm := by
  simp [savesOf, List.countP_append]

theorem savesOf_saveEv (n : String) (b : Bool) (nm : String) :
    savesOf [Ev.saveEv n b] nm = if n == nm then 1 else 0 := by
  simp only [savesOf, List.countP_cons, List.countP_nil]
  split <;> simp_all

theorem savesOf_presented (n : Nat) (a : List String) (nm : String) :
    savesOf [Ev.presented n a] nm = 0 := by
  simp [savesOf, List.countP_cons]

theorem savesOf_detect (n k : Nat) (nm : String) :
    savesOf [Ev.detect n k] nm = 0 := by
  simp [savesOf, List.countP_cons]

theorem savesOf_camLost (nm : String) : savesOf [Ev.camLost] nm = 0 := by
  simp [savesOf, List.countP_cons]

theorem goodT_append (names : List String) (tr : List Ev) (mkd : List String)
    (evs : List Ev) (hz : ∀ nm, savesOf evs nm = 0) (hg : GoodT names tr mkd) :
    GoodT names (tr ++ evs) mkd := by
  intro nm
  obtain ⟨h1, h2, h3⟩ := hg nm
  refine ⟨?_, ?_, h3⟩
  · simpa [savesOf_append, hz nm] using h1
  · intro hpos
    exact h2 (by simpa [savesOf_append, hz nm] using hpos)

theorem faceUpdate_trace (ctx : RunCtx) (s : LoopState) (nm : String)
    (saveOk : Bool) :
    ∃ tr, (faceUpdate ctx s nm saveOk).trace = s.trace ++ tr := by
  simp only [faceUpdate]
  by_cases hm : s.marked.contains nm
  · rw [if_pos hm]
    exact ⟨[], by simp⟩
  · rw [if_neg hm]
    exact ⟨[Ev.saveEv nm saveOk], rfl⟩

theorem faceUpdate_good (ctx : RunCtx) (names : List String) (s : LoopState)
    (nm : String) (saveOk : Bool) (hnm : nm ∈ names)
    (hg : GoodT names s.trace s.marked) :
    GoodT names (faceUpdate ctx s nm saveOk).trace (faceUpdate ctx s nm saveOk).marked := by
  simp only [faceUpdate]
  by_cases hm : s.marked.contains nm
  · rw [if_pos hm]
    exact hg
  · rw [if_neg hm]
    have hnotmem : nm ∉ s.marked := by
      intro hmem
      exact hm (by simpa using hmem)
    show GoodT names (s.trace ++ [Ev.saveEv nm saveOk]) (s.marked ++ [nm])
    intro nm'
    obtain ⟨h1, h2, h3⟩ := hg nm'
    by_cases heq : nm = nm'
    · subst heq
      have hz : savesOf s.trace nm = 0 := by
        by_contra hpos
        exact hnotmem (h2 (Nat.pos_of_ne_zero hpos))
      refine ⟨?_, ?_, fun _ => hnm⟩
      · simp [savesOf_append, savesOf_saveEv, hz]
      · intro _
        simp
    · refine ⟨?_, ?_, ?_⟩
      · simpa [savesOf_append, savesOf_saveEv, heq] using h1
      · intro hpos
        have hpos2 : 0 < savesOf s.trace nm' := by
          simpa [savesOf_append, savesOf_saveEv, heq] using hpos
        exact List.mem_append.mpr (Or.inl (h2 hpos2))
      · intro hmem
        rcases List.mem_append.mp hmem with hmem | hmem
        · exact h3 hmem
        · simp at hmem
          exact absurd hmem.symm heq

theorem processFaces_props (ctx : RunCtx) (fs : List (Emb × Bool)) :
    ∀ (s : LoopState) (annots : List String) (s1 : LoopState) (an : List String),
      processFaces ctx s annots fs = some (s1, an) →
      (∃ tr, s1.trace = s.trace ++ tr) ∧
      (GoodT ctx.names s.trace s.marked → GoodT ctx.names s1.trace s1.marked) := by
  induction fs with
  | nil =>
    intro s annots s1 an h
    simp [processFaces] at h
    obtain ⟨rfl, rfl⟩ := h
    exact ⟨⟨[], by simp⟩, fun hg => hg⟩
  | cons f rest ih =>
    obtain ⟨enc, saveOk⟩ := f
    intro s annots s1 an h
    simp only [processFaces] at h
    by_cases hc : (compare_faces ctx.encodings enc TOL2).contains true
    · rw [if_pos hc] at h
      cases hnm : ctx.names[(compare_faces ctx.encodings enc TOL2).findIdx (fun b => b)]? with
      | none =>
        rw [hnm] at h
        exact absurd h (by simp)
      | some nm =>
        rw [hnm] at h
        obtain ⟨⟨tr, htr⟩, hgood⟩ := ih (faceUpdate ctx s nm saveOk) (annots ++ [nm]) s1 an h
        obtain ⟨tr0, htr0⟩ := faceUpdate_trace ctx s nm saveOk
        refine ⟨⟨tr0 ++ tr, by rw [htr, htr0, List.append_assoc]⟩, ?_⟩
        intro hg
        exact hgood (faceUpdate_good ctx ctx.names s nm saveOk (List.getElem?_mem hnm) hg)
    · rw [if_neg hc] at h
      exact ih s (annots ++ [("Unknown")]) s1 an h

theorem stepTick_good (ctx : RunCtx) (s : LoopState) (t : Tick)
    (hg : GoodT ctx.names s.trace s.marked) :
    GoodT ctx.names (stepTick ctx s t).1.trace (stepTick ctx s t).1.marked := by
  cases t with
  | readFail reopenOk =>
    simp only [stepTick]
    by_cases hcap : s.cap
    · rw [if_pos hcap]
      exact goodT_append _ _ _ _ (fun nm => savesOf_camLost nm) hg
    · rw [if_neg hcap]
      exact hg
  | frame faces quit =>
    simp only [stepTick]
    by_cases hcap : s.cap
    · rw [if_pos hcap]
      by_cases hmod : (s.frameCount + 1) % 3 ≠ 0
      · rw [if_pos hmod]
        exact goodT_append _ _ _ _ (fun nm => savesOf_presented _ _ nm) hg
      · rw [if_neg hmod]
        have hg0 : GoodT ctx.names
            (s.trace ++ [Ev.detect (s.frameCount + 1) faces.length]) s.marked :=
          goodT_append _ _ _ _ (fun nm => savesOf_detect _ _ nm) hg
        cases hp : processFaces ctx
            { s with frameCount := s.frameCount + 1,
                     trace := s.trace ++ [Ev.detect (s.frameCount + 1) faces.length] }
            [] faces with
        | none =>
          exact hg0
        | some pr =>
          obtain ⟨s1, an⟩ := pr
          obtain ⟨_, hgood⟩ := processFaces_props ctx faces _ [] s1 an hp
          exact goodT_append _ _ _ _ (fun nm => savesOf_presented _ _ nm) (hgood hg0)
    · rw [if_neg hcap]
      exact hg

theorem runLoop_good (ctx : RunCtx) (ts : List Tick) :
    ∀ (s : LoopState), GoodT ctx.names s.trace s.marked →
      GoodT ctx.names (runLoop ctx s ts).1.trace (runLoop ctx s ts).1.marked := by
  induction ts with
  | nil =>
    intro s hg
    simpa [runLoop] using hg
  | cons t ts ih =>
    intro s hg
    have hstep := stepTick_good ctx s t hg
    rw [runLoop]
    cases hst : stepTick ctx s t with
    | mk s1 e =>
      rw [hst] at hstep
      cases e with
      | none => exact ih s1 hstep
      | some ex => exact hstep

/-- C3 (amended): starting from the loop-entry state, every label
reaches save_to_db at most once in a run, and when the string Unknown
is not itself a gallery label, the recorder is never invoked with it:
the save branch only runs when some gallery entry matched, so an
unmatched face's Unknown default never reaches storage. -/
theorem c3_session_dedup (ctx : RunCtx) (ts : List Tick)
    (h : ("Unknown") ∉ ctx.names) :
    (∀ nm, savesOf (runLoop ctx initState ts).1.trace nm ≤ 1) ∧
    savesOf (runLoop ctx initState ts).1.trace ("Unknown") = 0 := by
  have hinit : GoodT ctx.names initState.trace initState.marked := by
    intro nm
    simp [initState, savesOf]
  have hg := runLoop_good ctx ts initState hinit
  constructor
  · intro nm
    exact (hg nm).1
  · by_contra hne
    have hpos : 0 < savesOf (runLoop ctx initState ts).1.trace ("Unknown") :=
      Nat.pos_of_ne_zero hne
    exact h ((hg ("Unknown")).2.2 ((hg ("Unknown")).2.1 hpos))

theorem c3_session_dedup_witness :
    (("Unknown") ∉ (["A"] : List String)) ∧
    (∀ nm, savesOf (runLoop ⟨[], ["A"], ("d"), 0⟩ initState []).1.trace nm ≤ 1) ∧
    savesOf (runLoop ⟨[], ["A"], ("d"), 0⟩ initState []).1.trace ("Unknown") = 0 := by
  have h : ("Unknown") ∉ (["A"] : List String) := by decide
  exact ⟨h, c3_session_dedup ⟨[], ["A"], ("d"), 0⟩ [] h⟩

/-- C3 counterexample: with a gallery entry literally labelled Unknown
(for example a dataset directory named Unknown), the matched label
"Unknown" does reach the recorder: the dedup branch treats it like any
other label, so the claim that the recorder is never called with the
label Unknown fails on this run. -/
theorem c3_counterexample :
    savesOf (runLoop cexCtxUnknown initState cexUnknownTicks).1.trace ("Unknown") = 1 := by
  have hcf : compare_faces [[(0 : ℚ)]] [0] TOL2 = [true] := by
    norm_num [compare_faces, dist2, TOL2]
  simp [cexCtxUnknown, cexUnknownTicks, runLoop, stepTick, processFaces, faceUpdate,
    initState, hcf, savesOf, save_to_db, hasRow, student_id_of, List.findIdx_cons,
    List.countP_cons]

/-- C5 (confirmed): one loop iteration on a successfully read frame
either skips or detects by the incremented counter mod 3: when the
counter is not divisible by 3 the state changes only by presenting the
frame with an empty annotation list (no detection event, no matching,
no marked or database change), and when it is divisible by 3 a
detection event for this frame is in the trace. -/
theorem c5_frame_skip (ctx : RunCtx) (s : LoopState) (faces : List (Emb × Bool))
    (quit : Bool) (hcap : s.cap = true) :
    ((s.frameCount + 1) % 3 ≠ 0 →
      stepTick ctx s (Tick.frame faces quit) =
        ({ s with frameCount := s.frameCount + 1,
                  trace := s.trace ++ [Ev.presented (s.frameCount + 1) []] },
         if quit then some RunExit.quit else none)) ∧
    ((s.frameCount + 1) % 3 = 0 →
      Ev.detect (s.frameCount + 1) faces.length ∈
        (stepTick ctx s (Tick.frame faces quit)).1.trace) := by
  constructor
  · intro hmod
    simp only [stepTick]
    rw [if_pos hcap, if_pos hmod]
  · intro hmod
    simp only [stepTick]
    rw [if_pos hcap, if_neg (fun hne => hne hmod)]
    cases hp : processFaces ctx
        { s with frameCount := s.frameCount + 1,
                 trace := s.trace ++ [Ev.detect (s.frameCount + 1) faces.length] }
        [] faces with
    | none => simp
    | some pr =>
      obtain ⟨s1, an⟩ := pr
      obtain ⟨⟨tr, htr⟩, _⟩ := processFaces_props ctx faces _ [] s1 an hp
      simp only []
      show Ev.detect (s.frameCount + 1) faces.length ∈
        (s1.trace ++ [Ev.presented (s.frameCount + 1) an])
      simp [htr]

theorem c5_frame_skip_witness :
    ((initState.frameCount + 1) % 3 ≠ 0 →
      stepTick ⟨[], [], ("d"), 0⟩ initState (Tick.frame [] false) =
        ({ initState with frameCount := initState.frameCount + 1,
                          trace := initState.trace ++ [Ev.presented (initState.frameCount + 1) []] },
         if false then some RunExit.quit else none)) ∧
    ((initState.frameCount + 1) % 3 = 0 →
      Ev.detect (initState.frameCount + 1) ([] : List (Emb × Bool)).length ∈
        (stepTick ⟨[], [], ("d"), 0⟩ initState (Tick.frame [] false)).1.trace) :=
  c5_frame_skip ⟨[], [], ("d"), 0⟩ initState [] false rfl

/-- C7: the mid-run reconnect path evaluated at the failing input. On a
read failure the loop releases the handle and retries open_camera once;
when that retry fails (open_camera returns None), `cap` is None and the
next iteration's cap.read() raises AttributeError, terminating the loop
even though no stop was requested and the gallery had loaded: the
claim's "continues iterating whatever the outcome of the reopen
attempt" is the intended behaviour, and the code violates it. -/
theorem c7_crash_after_failed_reopen :
    runLoop ⟨[], [], ("d"), 0⟩ initState
      [Tick.readFail false, Tick.frame [] false] =
    ({ cap := false, frameCount := 0, marked := [], db := [],
       trace := [Ev.camLost] }, some RunExit.crashed) := by
  rfl

/-- C8 counterexample: the face of gallery label "A" is in frame for
six successfully read frames; on detection frame 3 the storage write
fails, on detection frame 6 storage would succeed. The recorder is
invoked exactly once in the run (the failed attempt), no row is ever
stored, and no retry happens on frame 6, because "A" entered the
session-dedup set before the write was attempted. -/
theorem c8_counterexample :
    Ev.saveEv ("A") false ∈ (runLoop ⟨[[(0 : ℚ)]], [("A")], ("d"), 0⟩ initState
      [Tick.frame [([0], false)] false, Tick.frame [([0], false)] false,
       Tick.frame [([0], false)] false, Tick.frame [([0], true)] false,
       Tick.frame [([0], true)] false, Tick.frame [([0], true)] false]).1.trace ∧
    savesOf (runLoop ⟨[[(0 : ℚ)]], [("A")], ("d"), 0⟩ initState
      [Tick.frame [([0], false)] false, Tick.frame [([0], false)] false,
       Tick.frame [([0], false)] false, Tick.frame [([0], true)] false,
       Tick.frame [([0], true)] false, Tick.frame [([0], true)] false]).1.trace ("A") = 1 ∧
    (runLoop ⟨[[(0 : ℚ)]], [("A")], ("d"), 0⟩ initState
      [Tick.frame [([0], false)] false, Tick.frame [([0], false)] false,
       Tick.frame [([0], false)] false, Tick.frame [([0], true)] false,
       Tick.frame [([0], true)] false, Tick.frame [([0], true)] false]).1.db = [] := by
  have hcf : compare_faces [[(0 : ℚ)]] [0] TOL2 = [true] := by
    norm_num [compare_faces, dist2, TOL2]
  refine ⟨?_, ?_, ?_⟩ <;>
    simp [runLoop, stepTick, processFaces, faceUpdate, initState, hcf, savesOf,
      save_to_db, hasRow, student_id_of, List.findIdx_cons, List.countP_cons]

/-- C8 (amended): a label whose storage write failed IS in the
session-dedup set (marked.add runs before save_to_db, and save_to_db
swallows its own errors), so the label is never re-attempted in the
same run: across any run from the loop-entry state the recorder is
invoked at most once per label, failed write or not; the student is
dropped for the rest of the run, recorded again only in a later run. -/
theorem c8_failed_write_not_retried (ctx : RunCtx) (ts1 ts2 : List Tick) (nm : String) :
    (Ev.saveEv nm false ∈ (runLoop ctx initState ts1).1.trace →
      nm ∈ (runLoop ctx initState ts1).1.marked) ∧
    savesOf (runLoop ctx initState (ts1 ++ ts2)).1.trace nm ≤ 1 := by
  have hinit : GoodT ctx.names initState.trace initState.marked := by
    intro nm'
    simp [initState, savesOf]
  constructor
  · intro hmem
    have hg := runLoop_good ctx ts1 initState hinit
    apply (hg nm).2.1
    exact List.countP_pos_iff.mpr ⟨Ev.saveEv nm false, hmem, by simp⟩
  · exact (runLoop_good ctx (ts1 ++ ts2) initState hinit nm).1

theorem c8_failed_write_not_retried_witness :
    (Ev.saveEv ("A") false ∈ (runLoop ⟨[], ["A"], ("d"), 0⟩ initState []).1.trace →
      ("A") ∈ (runLoop ⟨[], ["A"], ("d"), 0⟩ initState []).1.marked) ∧
    savesOf (runLoop ⟨[], ["A"], ("d"), 0⟩ initState ([] ++ [])).1.trace ("A") ≤ 1 :=
  c8_failed_write_not_retried ⟨[], ["A"], ("d"), 0⟩ [] [] ("A")

end FRAtt
